import Mathlib

/-!
Verification development for the vscode-drawio glue layer.

We shallowly embed the three source files:
  * `src/features/LiveshareFeature/SessionModel.ts` (peer view-state map),
  * `src/DrawioInstance/CustomDrawioInstance.ts` (event/action bridge),
  * the configuration module (`Config` / `DiagramConfig`).

JavaScript objects carry an insertion order of their keys, and
`JSON.stringify` serializes keys in that order; the SessionModel dedup check
compares such serializations.  We therefore model the JSON values that cross
the wire by an inductive type whose objects are ordered field lists.
-/

mutual

/-- A JavaScript/JSON value as it crosses the wire.  Object fields are an
ordered list, mirroring JS property insertion order.  Numbers are modelled
as integers (none of the verified properties depend on float formatting). -/
inductive Json where
  | null : Json
  | bool (b : Bool) : Json
  | num (n : Int) : Json
  | str (s : String) : Json
  | arr (elems : JsonList) : Json
  | obj (fields : JsonFields) : Json

/-- A list of JSON array elements. -/
inductive JsonList where
  | nil : JsonList
  | cons (hd : Json) (tl : JsonList) : JsonList

/-- The ordered field list of a JS object. -/
inductive JsonFields where
  | nil : JsonFields
  | cons (key : String) (val : Json) (tl : JsonFields) : JsonFields

end

/-- One hexadecimal digit, lowercase, as emitted by `JSON.stringify` when it
escapes control characters. -/
def hexDigitChar (n : Nat) : Char :=
  if n = 0 then '0' else if n = 1 then '1' else if n = 2 then '2'
  else if n = 3 then '3' else if n = 4 then '4' else if n = 5 then '5'
  else if n = 6 then '6' else if n = 7 then '7' else if n = 8 then '8'
  else if n = 9 then '9' else if n = 10 then 'a' else if n = 11 then 'b'
  else if n = 12 then 'c' else if n = 13 then 'd' else if n = 14 then 'e'
  else 'f'

/-- How `JSON.stringify` escapes a single character inside a string literal. -/
def escChar (c : Char) : List Char :=
  if c = '"' then ['\\', '"']
  else if c = '\\' then ['\\', '\\']
  else if c.toNat = 8 then ['\\', 'b']
  else if c.toNat = 9 then ['\\', 't']
  else if c.toNat = 10 then ['\\', 'n']
  else if c.toNat = 12 then ['\\', 'f']
  else if c.toNat = 13 then ['\\', 'r']
  else if c.toNat < 32 then
    ['\\', 'u', '0', '0', hexDigitChar (c.toNat / 16), hexDigitChar (c.toNat % 16)]
  else [c]

/-- `JSON.stringify` of a string value: quoted and escaped. -/
def quoteJsonString (s : String) : String :=
  "\"" ++ String.mk (s.data.flatMap escChar) ++ "\""

mutual

/-- `JSON.stringify`, on our JSON model.  Object keys are serialized in
their stored (insertion) order — this is what the real `JSON.stringify`
does, and it is the crux of claim C3. -/
def Json.stringify : Json → String
  | .null => "null"
  | .bool true => "true"
  | .bool false => "false"
  | .num n => toString n
  | .str s => quoteJsonString s
  | .arr elems => "[" ++ JsonList.stringifyElems elems ++ "]"
  | .obj fields => "\x7b" ++ JsonFields.stringifyFields fields ++ "\x7d"

def JsonList.stringifyElems : JsonList → String
  | .nil => ""
  | .cons hd tl => Json.stringify hd ++ JsonList.stringifyRest tl

def JsonList.stringifyRest : JsonList → String
  | .nil => ""
  | .cons hd tl => "," ++ Json.stringify hd ++ JsonList.stringifyRest tl

def JsonFields.stringifyFields : JsonFields → String
  | .nil => ""
  | .cons k v tl =>
      quoteJsonString k ++ ":" ++ Json.stringify v ++ JsonFields.stringifyRest tl

def JsonFields.stringifyRest : JsonFields → String
  | .nil => ""
  | .cons k v tl =>
      "," ++ quoteJsonString k ++ ":" ++ Json.stringify v ++ JsonFields.stringifyRest tl

end

/-!  ## SessionModel

From `src/features/LiveshareFeature/SessionModel.ts`.  The view state a peer
reports arrives over the collaboration wire as a JSON value (or `undefined`,
meaning "peer has no view open"), so we model `ViewState` as `Option Json`.
The map is total over peer ids, absent peers mapping to `none`. -/

/-- `ViewState` from SessionModel.ts: `undefined` (`none`) or a wire JSON
value describing `\x7bactiveUri, currentCursor, selectedCellIds\x7d`. -/
abbrev ViewState := Option Json

/-- A 2D point, from SessionModel.ts / CustomDrawioInstance.ts. -/
structure Point where
  x : Int
  y : Int

/-- The value stored in `viewStatesByPeerId`:
`\x7b peerId: update.peerId, viewState: update.newViewState \x7d`. -/
structure PeerEntry where
  peerId : Int
  viewState : ViewState

/-- `JSON.stringify` of a stored peer entry.  The object literal in `apply`
writes `peerId` first, then `viewState`; `JSON.stringify` omits a key whose
value is `undefined`. -/
def stringifyEntry (e : PeerEntry) : String :=
  match e.viewState with
  | none => "\x7b\"peerId\":" ++ toString e.peerId ++ "\x7d"
  | some v =>
      "\x7b\"peerId\":" ++ toString e.peerId ++ ",\"viewState\":" ++ Json.stringify v ++ "\x7d"

/-- `JSON.stringify(val)` where `val : PeerEntry | undefined`:
`JSON.stringify(undefined)` is the JS value `undefined`, which compares
unequal (`!==`) to every string — modelled by `Option String`. -/
def stringifyEntryOpt : Option PeerEntry → Option String
  | none => none
  | some e => some (stringifyEntry e)

/-- The tagged update union `SessionModelUpdate` from SessionModel.ts. -/
inductive SessionModelUpdate where
  | updateViewState (peerId : Int) (newViewState : ViewState)
  | removePeer (peerId : Int)
  | updateCursor (peerId : Int) (cursorPosition : Option Point)

/-- The state of a `SessionModel`: the observable map `viewStatesByPeerId`,
modelled as a total function (absent key = `none`). -/
structure SessionModel where
  viewStatesByPeerId : Int → Option PeerEntry

/-- A fresh `SessionModel`, with an empty map. -/
def SessionModel.empty : SessionModel := ⟨fun _ => none⟩

/-- `SessionModel.apply`.  The returned `Bool` records whether the map was
mutated (`ObservableMap.set` was called), which is exactly when a change
notification fires to mobx observers.  Only `updateViewState` is handled;
`removePeer` and `updateCursor` fall through the single `if` untouched. -/
def SessionModel.apply (m : SessionModel) (update : SessionModelUpdate) :
    SessionModel × Bool :=
  match update with
  | .updateViewState peerId newViewState =>
      let val := m.viewStatesByPeerId peerId
      let newVal : PeerEntry := { peerId := peerId, viewState := newViewState }
      if stringifyEntryOpt val ≠ some (stringifyEntry newVal) then
        (⟨fun k => if k = peerId then some newVal else m.viewStatesByPeerId k⟩, true)
      else
        (m, false)
  | .removePeer _ => (m, false)
  | .updateCursor _ _ => (m, false)

/-- Apply a whole sequence of updates, counting how many change
notifications fired along the way. -/
def SessionModel.applyAll (m : SessionModel) : List SessionModelUpdate → SessionModel × Nat
  | [] => (m, 0)
  | u :: us =>
      let r := m.apply u
      let rest := r.fst.applyAll us
      (rest.fst, (if r.snd then 1 else 0) + rest.snd)

/-!  ## Spec-side semantic equality of JSON values (for claim C3)

The spec demands a comparison for which "key ordering does not affect the
comparison result for semantically identical objects".  We formalize
"semantically identical" as: equal after recursively sorting every object's
fields by key. -/

/-- Total lexicographic order on key character lists (used only by the
spec-side canonicalization; any total order works). -/
def charListLe : List Char → List Char → Bool
  | [], _ => true
  | _ :: _, [] => false
  | a :: as, b :: bs =>
      if a.toNat < b.toNat then true
      else if b.toNat < a.toNat then false
      else charListLe as bs

/-- Key order used by the spec-side canonicalization. -/
def keyLe (a b : String) : Bool := charListLe a.data b.data

/-- Insert a field into a key-sorted field list. -/
def JsonFields.insertSorted (k : String) (v : Json) : JsonFields → JsonFields
  | .nil => .cons k v .nil
  | .cons k2 v2 tl =>
      if keyLe k k2 then .cons k v (.cons k2 v2 tl)
      else .cons k2 v2 (JsonFields.insertSorted k v tl)

/-- Sort a field list by key (insertion sort). -/
def JsonFields.sortByKey : JsonFields → JsonFields
  | .nil => .nil
  | .cons k v tl => JsonFields.insertSorted k v (JsonFields.sortByKey tl)

mutual

/-- Canonical form of a JSON value: every object's fields recursively
sorted by key.  Follows the spec's words: content with key order abstracted
away. -/
def Json.canon : Json → Json
  | .null => .null
  | .bool b => .bool b
  | .num n => .num n
  | .str s => .str s
  | .arr elems => .arr (JsonList.canonElems elems)
  | .obj fields => .obj (JsonFields.sortByKey (JsonFields.canonFields fields))

def JsonList.canonElems : JsonList → JsonList
  | .nil => .nil
  | .cons hd tl => .cons (Json.canon hd) (JsonList.canonElems tl)

def JsonFields.canonFields : JsonFields → JsonFields
  | .nil => .nil
  | .cons k v tl => .cons k (Json.canon v) (JsonFields.canonFields tl)

end

/-- Follows the spec's words (claim C3): two wire values are semantically
identical when they have equal field contents regardless of the order in
which their keys/fields were produced — i.e., equal canonical forms. -/
def Json.semanticallyIdentical (a b : Json) : Prop :=
  Json.canon a = Json.canon b

/-!  ## SessionModel helper lemmas -/

/-- One `apply` step never removes a stored peer entry. -/
theorem applyStep_preserves_isSome (m : SessionModel) (u : SessionModelUpdate) (p : Int)
    (h : (m.viewStatesByPeerId p).isSome = true) :
    (((m.apply u).fst).viewStatesByPeerId p).isSome = true := by
  cases u with
  | updateViewState q vs =>
      simp only [SessionModel.apply]
      split
      · by_cases hpq : p = q <;> simp [hpq, h]
      · exact h
  | removePeer q => exact h
  | updateCursor q c => exact h

/-- After an `updateViewState` for `p`, the stored entry for `p` serializes
exactly like the candidate entry. -/
theorem applyStep_stored_serialization (m : SessionModel) (p : Int) (vs : ViewState) :
    stringifyEntryOpt
        (((m.apply (.updateViewState p vs)).fst).viewStatesByPeerId p)
      = some (stringifyEntry ⟨p, vs⟩) := by
  simp only [SessionModel.apply]
  split
  · simp [stringifyEntryOpt]
  · next h =>
      rw [not_not] at h
      exact h

/-- `apply` is a no-op exactly when the stored entry already serializes
like the candidate. -/
theorem apply_noop_of_serialization_eq (m : SessionModel) (p : Int) (vs : ViewState)
    (h : stringifyEntryOpt (m.viewStatesByPeerId p) = some (stringifyEntry ⟨p, vs⟩)) :
    m.apply (.updateViewState p vs) = (m, false) := by
  simp only [SessionModel.apply]
  rw [if_neg (fun hc => hc h)]

/-- Dedup collapse: if the candidate entry of a second `updateViewState`
serializes identically to that of the first, the second application is a
no-op: same map, no notification. -/
theorem applyDedupCollapse (m : SessionModel) (p : Int) (v1 v2 : ViewState)
    (h : stringifyEntry ⟨p, v2⟩ = stringifyEntry ⟨p, v1⟩) :
    (m.apply (.updateViewState p v1)).fst.apply (.updateViewState p v2)
      = ((m.apply (.updateViewState p v1)).fst, false) := by
  apply apply_noop_of_serialization_eq
  rw [applyStep_stored_serialization m p v1, h]

/-!  ## Claim theorems about SessionModel -/

/-- C1 (amended): for every SessionModel state, applying the same
`updateViewState` update `\x7bpeerId, viewState\x7d` twice in a row
performs at most one stored mutation and fires at most one change
notification: the second, structurally identical application always leaves
the map unchanged and fires nothing. -/
theorem c1_apply_same_update_twice (m : SessionModel) (p : Int) (vs : ViewState) :
    ((m.apply (.updateViewState p vs)).fst.apply (.updateViewState p vs)
        = ((m.apply (.updateViewState p vs)).fst, false)) ∧
    (m.applyAll [.updateViewState p vs, .updateViewState p vs]).snd ≤ 1 := by
  have hnoop := applyDedupCollapse m p vs vs rfl
  refine ⟨hnoop, ?_⟩
  simp only [SessionModel.applyAll, hnoop]
  cases (m.apply (.updateViewState p vs)).snd <;> simp

/-- C1 counterexample: starting from the reachable state in which the very
same update has already been applied once, applying it twice in a row
performs zero stored mutations and fires zero change notifications — not
exactly one. -/
theorem c1_counterexample :
    ((SessionModel.empty.apply (.updateViewState 0 none)).fst.applyAll
        [.updateViewState 0 none, .updateViewState 0 none]).snd = 0 := by
  decide

/-- C2: applying a `removePeer` or `updateCursor` update leaves the peer
map completely unchanged (and fires no change notification), and no
sequence of `apply` calls ever removes a stored peer entry from the map. -/
theorem c2_removePeer_updateCursor_noop_and_no_removal :
    (∀ (m : SessionModel) (p : Int), m.apply (.removePeer p) = (m, false)) ∧
    (∀ (m : SessionModel) (p : Int) (c : Option Point),
        m.apply (.updateCursor p c) = (m, false)) ∧
    (∀ (m : SessionModel) (us : List SessionModelUpdate) (p : Int),
        (m.viewStatesByPeerId p).isSome = true →
        (((m.applyAll us).fst).viewStatesByPeerId p).isSome = true) := by
  refine ⟨fun m p => rfl, fun m p c => rfl, ?_⟩
  intro m us
  induction us generalizing m with
  | nil => intro p h; exact h
  | cons u us ih =>
      intro p h
      simp only [SessionModel.applyAll]
      exact ih _ _ (applyStep_preserves_isSome m u p h)

/-- Witness for C2: a stored peer entry survives a subsequent `removePeer`. -/
theorem c2_witness :
    ((((SessionModel.empty.apply (.updateViewState 0 none)).fst).viewStatesByPeerId 0).isSome
        = true) ∧
    (((((SessionModel.empty.apply (.updateViewState 0 none)).fst).applyAll
        [.removePeer 0]).fst).viewStatesByPeerId 0).isSome = true :=
  ⟨by decide,
   c2_removePeer_updateCursor_noop_and_no_removal.2.2
     (SessionModel.empty.apply (.updateViewState 0 none)).fst [.removePeer 0] 0 (by decide)⟩

/-- C3 (amended): the dedup comparison used by `apply` is equality of
`JSON.stringify` serializations — content-based in the sense of comparing
serialized content rather than references: whenever two view states
serialize identically (in particular, structurally identical values whose
keys are produced in the same order), the second update collapses to a
no-op.  It is, however, key-order-sensitive: see the counterexample. -/
theorem c3_dedup_is_serialization_equality (m : SessionModel) (p : Int)
    (v1 v2 : ViewState)
    (h : stringifyEntry ⟨p, v2⟩ = stringifyEntry ⟨p, v1⟩) :
    (m.apply (.updateViewState p v1)).fst.apply (.updateViewState p v2)
      = ((m.apply (.updateViewState p v1)).fst, false) :=
  applyDedupCollapse m p v1 v2 h

/-- Witness for C3 (amended). -/
theorem c3_dedup_is_serialization_equality_witness :
    (stringifyEntry ⟨(0 : Int), some Json.null⟩
        = stringifyEntry ⟨(0 : Int), some Json.null⟩) ∧
    (SessionModel.empty.apply (.updateViewState 0 (some .null))).fst.apply
        (.updateViewState 0 (some .null))
      = ((SessionModel.empty.apply (.updateViewState 0 (some .null))).fst, false) :=
  ⟨rfl,
   c3_dedup_is_serialization_equality SessionModel.empty 0 (some .null) (some .null) rfl⟩

/-- C3 counterexample: the objects `\x7b"a":1,"b":2\x7d` and
`\x7b"b":2,"a":1\x7d` are semantically identical (equal field contents,
keys produced in different orders), yet the comparison used by `apply`
reports them unequal, and the second update does not collapse to a no-op:
it mutates the map and fires a notification. -/
theorem c3_counterexample :
    Json.semanticallyIdentical
        (.obj (.cons "a" (.num 1) (.cons "b" (.num 2) .nil)))
        (.obj (.cons "b" (.num 2) (.cons "a" (.num 1) .nil))) ∧
    stringifyEntry ⟨0, some (.obj (.cons "a" (.num 1) (.cons "b" (.num 2) .nil)))⟩
      ≠ stringifyEntry ⟨0, some (.obj (.cons "b" (.num 2) (.cons "a" (.num 1) .nil)))⟩ ∧
    ((SessionModel.empty.apply
          (.updateViewState 0
            (some (.obj (.cons "a" (.num 1) (.cons "b" (.num 2) .nil)))))).fst.apply
        (.updateViewState 0
          (some (.obj (.cons "b" (.num 2) (.cons "a" (.num 1) .nil)))))).snd = true :=
  ⟨rfl, by decide, by decide⟩

/-- C6: for a peer with no stored entry, the first `updateViewState` always
mutates the map — it stores the new entry and fires a notification —
including when the new view state is `undefined`; an absent entry never
compares equal to any candidate entry. -/
theorem c6_first_update_always_mutates (m : SessionModel) (p : Int) (vs : ViewState)
    (h : m.viewStatesByPeerId p = none) :
    (m.apply (.updateViewState p vs)).snd = true ∧
    ((m.apply (.updateViewState p vs)).fst).viewStatesByPeerId p = some ⟨p, vs⟩ := by
  have hcond : stringifyEntryOpt (m.viewStatesByPeerId p)
      ≠ some (stringifyEntry ⟨p, vs⟩) := by
    rw [h]
    exact fun hc => Option.noConfusion hc
  simp only [SessionModel.apply]
  rw [if_pos hcond]
  exact ⟨rfl, by simp⟩

/-- Witness for C6. -/
theorem c6_witness :
    SessionModel.empty.viewStatesByPeerId 0 = none ∧
    ((SessionModel.empty.apply (.updateViewState 0 none)).snd = true ∧
     ((SessionModel.empty.apply (.updateViewState 0 none)).fst).viewStatesByPeerId 0
        = some ⟨0, none⟩) :=
  ⟨rfl, c6_first_update_always_mutates SessionModel.empty 0 none rfl⟩

/-- C10: applying an `updateViewState` update for peer `p` leaves the map
entry of every other peer `q ≠ p` (present or absent) exactly as it was:
`apply` touches at most the entry keyed by the update's own peer id. -/
theorem c10_apply_frame (m : SessionModel) (p q : Int) (vs : ViewState)
    (h : q ≠ p) :
    ((m.apply (.updateViewState p vs)).fst).viewStatesByPeerId q
      = m.viewStatesByPeerId q := by
  simp only [SessionModel.apply]
  split
  · simp [h]
  · rfl

/-- Witness for C10. -/
theorem c10_apply_frame_witness :
    ((2 : Int) ≠ 1) ∧
    ((SessionModel.empty.apply (.updateViewState 1 none)).fst).viewStatesByPeerId 2
      = SessionModel.empty.viewStatesByPeerId 2 :=
  ⟨by decide, c10_apply_frame SessionModel.empty 1 2 none (by decide)⟩

/-!  ## CustomDrawioInstance (event/action bridge)

From `src/DrawioInstance/CustomDrawioInstance.ts`.  The base channel
(`DrawioInstance`) is an external collaborator; what this layer adds is the
pairing of a correlated response with a tag check (`getVertices`) and the
inbound dispatch (`handleEvent`).  Inbound wire events are a tagged union
discriminated by their `event` field. -/

/-- A vertex `\x7bid, label\x7d` as carried by the `getVertices` response. -/
structure Vertex where
  id : String
  label : String

/-- The inbound wire event union `CustomDrawioEvent`, discriminated by its
`event` tag.  `base` stands for the events of the underlying generic drawio
protocol, which this layer does not interpret. -/
inductive CustomDrawioEvent where
  | nodeSelected (label : String) (linkedData : Json)
  | pluginLoaded (pluginId : String)
  | focusChanged (hasFocus : Bool)
  | cursorChanged (position : Option Point)
  | selectionChanged (selectedCellIds : List String)
  | getVertices (vertices : List Vertex)
  | base (tag : String)

/-- The `event` discriminant string of a wire event. -/
def CustomDrawioEvent.tag : CustomDrawioEvent → String
  | .nodeSelected _ _ => "nodeSelected"
  | .pluginLoaded _ => "pluginLoaded"
  | .focusChanged _ => "focusChanged"
  | .cursorChanged _ => "cursorChanged"
  | .selectionChanged _ => "selectionChanged"
  | .getVertices _ => "getVertices"
  | .base t => t

/-- A typed notification broadcast by one of the five emitters of
`CustomDrawioInstance`, with exactly the payload the source constructs. -/
inductive CustomNotification where
  | nodeSelected (label : String) (linkedData : Json)
  | customPluginLoaded (pluginId : String)
  | focusChanged (hasFocus : Bool)
  | cursorChanged (newPosition : Option Point)
  | selectionsChanged (selectedCellIds : List String)

/-- What one `handleEvent` invocation does with an inbound event: emit one
typed notification, or delegate to `super.handleEvent`. -/
inductive HandleEventResult where
  | emitted (n : CustomNotification)
  | delegatedToBase (evt : CustomDrawioEvent)

/-- `CustomDrawioInstance.handleEvent`: the five-way `if` chain on
`evt.event`, falling through to `super.handleEvent(evt)`. -/
def CustomDrawioInstance.handleEvent : CustomDrawioEvent → HandleEventResult
  | .nodeSelected label linkedData => .emitted (.nodeSelected label linkedData)
  | .pluginLoaded pluginId => .emitted (.customPluginLoaded pluginId)
  | .focusChanged hasFocus => .emitted (.focusChanged hasFocus)
  | .cursorChanged position => .emitted (.cursorChanged position)
  | .selectionChanged ids => .emitted (.selectionsChanged ids)
  | evt => .delegatedToBase evt

/-- `CustomDrawioInstance.getVertices`, as a function of the correlated
response event delivered by `sendCustomActionExpectResponse`: if
`response.event !== "getVertices"` it throws `Error("Invalid Response")`,
otherwise it resolves to `response.vertices`. -/
def CustomDrawioInstance.getVertices (response : CustomDrawioEvent) :
    Except String (List Vertex) :=
  match response with
  | .getVertices vertices => .ok vertices
  | _ => .error "Invalid Response"

/-- C4: a correlated response whose tag differs from "getVertices" makes
`getVertices` reject with an "Invalid Response" error (never a default or
empty list); a response with the matching tag resolves to exactly the
vertex list it carries. -/
theorem c4_getVertices_response_check :
    (∀ r : CustomDrawioEvent, r.tag ≠ "getVertices" →
        CustomDrawioInstance.getVertices r = .error "Invalid Response") ∧
    (∀ vs : List Vertex,
        CustomDrawioInstance.getVertices (.getVertices vs) = .ok vs) := by
  refine ⟨?_, fun vs => rfl⟩
  intro r h
  cases r <;> first | rfl | (exact absurd rfl h)

/-- Witness for C4. -/
theorem c4_witness :
    ((CustomDrawioEvent.pluginLoaded "p").tag ≠ "getVertices" ∧
     CustomDrawioInstance.getVertices (.pluginLoaded "p") = .error "Invalid Response") ∧
    CustomDrawioInstance.getVertices (.getVertices [⟨"v1", "l1"⟩]) = .ok [⟨"v1", "l1"⟩] :=
  ⟨⟨by decide, c4_getVertices_response_check.1 (.pluginLoaded "p") (by decide)⟩,
   c4_getVertices_response_check.2 [⟨"v1", "l1"⟩]⟩

/-- C5: `handleEvent` dispatches by tag: each of the five recognized tags
fires exactly the corresponding notification with the payload the source
specifies for that tag, and every event with any other tag is delegated to
the base channel's default handling. -/
theorem c5_handleEvent_dispatch :
    (∀ (label : String) (linkedData : Json),
        CustomDrawioInstance.handleEvent (.nodeSelected label linkedData)
          = .emitted (.nodeSelected label linkedData)) ∧
    (∀ pluginId : String,
        CustomDrawioInstance.handleEvent (.pluginLoaded pluginId)
          = .emitted (.customPluginLoaded pluginId)) ∧
    (∀ hasFocus : Bool,
        CustomDrawioInstance.handleEvent (.focusChanged hasFocus)
          = .emitted (.focusChanged hasFocus)) ∧
    (∀ position : Option Point,
        CustomDrawioInstance.handleEvent (.cursorChanged position)
          = .emitted (.cursorChanged position)) ∧
    (∀ ids : List String,
        CustomDrawioInstance.handleEvent (.selectionChanged ids)
          = .emitted (.selectionsChanged ids)) ∧
    (∀ evt : CustomDrawioEvent,
        evt.tag ∉ ["nodeSelected", "pluginLoaded", "focusChanged",
                    "cursorChanged", "selectionChanged"] →
        CustomDrawioInstance.handleEvent evt = .delegatedToBase evt) := by
  refine ⟨fun _ _ => rfl, fun _ => rfl, fun _ => rfl, fun _ => rfl, fun _ => rfl, ?_⟩
  intro evt h
  cases evt <;> first | rfl | (exact absurd (by simp [CustomDrawioEvent.tag]) h)

/-- Witness for C5: a base-protocol event (tag "init") is delegated. -/
theorem c5_witness :
    (CustomDrawioEvent.base "init").tag ∉
        ["nodeSelected", "pluginLoaded", "focusChanged",
         "cursorChanged", "selectionChanged"] ∧
    CustomDrawioInstance.handleEvent (.base "init") = .delegatedToBase (.base "init") :=
  ⟨by decide, c5_handleEvent_dispatch.2.2.2.2.2 (.base "init") (by decide)⟩

/-!  ## Config: known-plugin trust decisions (C9)

From the configuration module: `Config.isPluginAllowed` and
`Config.addKnownPlugin`, operating on the persisted `knownPlugins` list. -/

/-- One persisted trust decision `\x7bpluginId, fingerprint, allowed\x7d`. -/
structure KnownPluginEntry where
  pluginId : String
  fingerprint : String
  allowed : Bool

/-- The key predicate of `isPluginAllowed`:
`d.pluginId === pluginId && d.fingerprint === fingerprint`. -/
def knownPluginKeyMatch (pluginId fingerprint : String) (d : KnownPluginEntry) : Bool :=
  d.pluginId == pluginId && d.fingerprint == fingerprint

/-- `Config.isPluginAllowed`: find the entry for the exact
`(pluginId, fingerprint)` key; `undefined` (`none`) when absent, otherwise
the stored `allowed` flag. -/
def Config.isPluginAllowed (data : List KnownPluginEntry)
    (pluginId fingerprint : String) : Option Bool :=
  match data.find? (knownPluginKeyMatch pluginId fingerprint) with
  | none => none
  | some entry => some entry.allowed

/-- `Config.addKnownPlugin`: drop every entry for the same exact key
(`p.pluginId !== pluginId || p.fingerprint !== fingerprint` keeps the
rest), then push the new decision. -/
def Config.addKnownPlugin (data : List KnownPluginEntry)
    (pluginId fingerprint : String) (allowed : Bool) : List KnownPluginEntry :=
  (data.filter (fun p => p.pluginId != pluginId || p.fingerprint != fingerprint))
    ++ [{ pluginId := pluginId, fingerprint := fingerprint, allowed := allowed }]

/-- Entries kept by `addKnownPlugin`'s filter never match the key. -/
theorem filter_keeps_no_key_match (data : List KnownPluginEntry)
    (pluginId fingerprint : String) (d : KnownPluginEntry)
    (hd : d ∈ data.filter (fun p => p.pluginId != pluginId || p.fingerprint != fingerprint)) :
    knownPluginKeyMatch pluginId fingerprint d = false := by
  have := List.of_mem_filter hd
  simp only [Bool.or_eq_true, bne_iff_ne] at this
  simp only [knownPluginKeyMatch, Bool.and_eq_false_iff, beq_eq_false_iff_ne]
  tauto

/-- C9: `addKnownPlugin` replaces any existing decision for the exact
`(pluginId, fingerprint)` key rather than appending a duplicate (the result
holds exactly one entry for that key), afterwards `isPluginAllowed` returns
the new `allowed` value, and for a key with no stored decision
`isPluginAllowed` returns `undefined`. -/
theorem c9_known_plugins (data : List KnownPluginEntry)
    (pluginId fingerprint : String) (allowed : Bool) :
    ((Config.addKnownPlugin data pluginId fingerprint allowed).countP
        (knownPluginKeyMatch pluginId fingerprint) = 1) ∧
    (Config.isPluginAllowed (Config.addKnownPlugin data pluginId fingerprint allowed)
        pluginId fingerprint = some allowed) ∧
    (∀ data2 : List KnownPluginEntry,
        (∀ d ∈ data2, knownPluginKeyMatch pluginId fingerprint d = false) →
        Config.isPluginAllowed data2 pluginId fingerprint = none) := by
  have hfilter : ∀ d ∈ data.filter
      (fun p => p.pluginId != pluginId || p.fingerprint != fingerprint),
      knownPluginKeyMatch pluginId fingerprint d = false :=
    fun d hd => filter_keeps_no_key_match data pluginId fingerprint d hd
  have hfind : (data.filter
      (fun p => p.pluginId != pluginId || p.fingerprint != fingerprint)).find?
        (knownPluginKeyMatch pluginId fingerprint) = none := by
    rw [List.find?_eq_none]
    intro d hd
    simp [hfilter d hd]
  refine ⟨?_, ?_, ?_⟩
  · rw [Config.addKnownPlugin, List.countP_append]
    rw [List.countP_eq_zero.mpr (fun d hd => by simp [hfilter d hd])]
    simp [List.countP, List.countP.go, knownPluginKeyMatch]
  · rw [Config.isPluginAllowed, Config.addKnownPlugin, List.find?_append, hfind]
    simp [knownPluginKeyMatch]
  · intro data2 h2
    rw [Config.isPluginAllowed, List.find?_eq_none.mpr (fun d hd => by simp [h2 d hd])]

/-- Witness for C9. -/
theorem c9_witness :
    ((∀ d ∈ ([] : List KnownPluginEntry), knownPluginKeyMatch "p" "f" d = false) ∧
     Config.isPluginAllowed [] "p" "f" = none) ∧
    ((Config.addKnownPlugin [⟨"p", "f", false⟩] "p" "f" true).countP
        (knownPluginKeyMatch "p" "f") = 1 ∧
     Config.isPluginAllowed (Config.addKnownPlugin [⟨"p", "f", false⟩] "p" "f" true)
        "p" "f" = some true) :=
  ⟨⟨fun d hd => absurd hd (List.not_mem_nil d),
    (c9_known_plugins [] "p" "f" true).2.2 [] (fun d hd => absurd hd (List.not_mem_nil d))⟩,
   ⟨(c9_known_plugins [⟨"p", "f", false⟩] "p" "f" true).1,
    (c9_known_plugins [⟨"p", "f", false⟩] "p" "f" true).2.1⟩⟩

/-!  ## DiagramConfig: template evaluation (C8)

`DiagramConfig.evaluateTemplate` (configuration module) renders a setting
string through `SimpleTemplate`, resolving the single recognized
placeholder to the enclosing workspace root, and throwing a descriptive
error when the document lies outside any workspace.  The host workspace
lookup is modelled by an `Option String` (the root path, when any). -/

/-- The characters of the recognized placeholder. -/
def workspaceFolderPlaceholder : List Char := "$\x7bworkspaceFolder\x7d".data

/-- The message of the error thrown by `evaluateTemplate`'s resolver when
`workspace.getWorkspaceFolder` finds no enclosing workspace. -/
def noWorkspaceErrorMessage : String :=
  "No workspace is opened - \x27$\x7bworkspaceFolder\x7d cannot be used\x27!"

/-- Whether the placeholder occurs in a character list. -/
def containsPlaceholder : List Char → Bool
  | [] => false
  | c :: cs =>
      workspaceFolderPlaceholder.isPrefixOf (c :: cs) || containsPlaceholder cs

/-- Modelled from the spec: `SimpleTemplate.render`
(`src/utils/SimpleTemplate.ts` is not under `src/`).  Per the spec it is "a
minimal template-substitution facility resolving one recognized
placeholder, `workspaceFolder`": each occurrence of the placeholder is
replaced by the value produced by the resolver, and a resolver failure
propagates to the caller. -/
def renderTemplate (resolved : Except String String) : List Char → Except String (List Char)
  | [] => .ok []
  | c :: cs =>
      if workspaceFolderPlaceholder.isPrefixOf (c :: cs) then
        match resolved with
        | .error e => .error e
        | .ok v =>
            match renderTemplate resolved ((c :: cs).drop workspaceFolderPlaceholder.length) with
            | .error e => .error e
            | .ok rest => .ok (v.data ++ rest)
      else
        match renderTemplate resolved cs with
        | .error e => .error e
        | .ok rest => .ok (c :: rest)
  termination_by l => l.length
  decreasing_by
    · simp only [List.length_drop]
      simp [workspaceFolderPlaceholder]
      omega
    · simp

/-- `DiagramConfig.evaluateTemplate`: render the template with the
`workspaceFolder` resolver; the resolver returns the workspace root path,
or throws the descriptive error when there is no enclosing workspace. -/
def DiagramConfig.evaluateTemplate (workspaceFolder : Option String)
    (template : String) : Except String String :=
  match renderTemplate
      (match workspaceFolder with
       | none => .error noWorkspaceErrorMessage
       | some root => .ok root)
      template.data with
  | .error e => .error e
  | .ok cs => .ok (String.mk cs)

/-- `DiagramConfig.plugins`: every configured entry's `file` path is
template-expanded; the first failing expansion rejects the whole read. -/
def DiagramConfig.plugins : List String → Option String → Except String (List String)
  | [], _ => .ok []
  | f :: fs, workspaceFolder =>
      match DiagramConfig.evaluateTemplate workspaceFolder f with
      | .error e => .error e
      | .ok file =>
          match DiagramConfig.plugins fs workspaceFolder with
          | .error e => .error e
          | .ok rest => .ok (file :: rest)

/-- A template without the placeholder renders to itself, never consulting
the resolver. -/
theorem renderTemplate_no_placeholder (resolved : Except String String)
    (l : List Char) (h : containsPlaceholder l = false) :
    renderTemplate resolved l = .ok l := by
  induction l with
  | nil => rw [renderTemplate]
  | cons c cs ih =>
      rw [containsPlaceholder, Bool.or_eq_false_iff] at h
      rw [renderTemplate.eq_def]
      simp only
      rw [if_neg (by simp [h.1]), ih h.2]

/-- A template containing the placeholder propagates the resolver's error. -/
theorem renderTemplate_error (e : String) (l : List Char)
    (h : containsPlaceholder l = true) :
    renderTemplate (.error e) l = .error e := by
  induction l with
  | nil => exact absurd h (by rw [containsPlaceholder]; simp)
  | cons c cs ih =>
      rw [containsPlaceholder, Bool.or_eq_true] at h
      by_cases hpre : workspaceFolderPlaceholder.isPrefixOf (c :: cs) = true
      · rw [renderTemplate.eq_def]
        simp only
        rw [if_pos hpre]
      · rw [renderTemplate.eq_def]
        simp only
        rw [if_neg hpre, ih (h.resolve_left hpre)]

/-- Unfolding `renderTemplate` at a placeholder occurrence. -/
theorem renderTemplate_cons_match (resolved : Except String String) (c : Char)
    (cs : List Char)
    (h : workspaceFolderPlaceholder.isPrefixOf (c :: cs) = true) :
    renderTemplate resolved (c :: cs)
      = match resolved with
        | .error e => .error e
        | .ok v =>
            match renderTemplate resolved
                ((c :: cs).drop workspaceFolderPlaceholder.length) with
            | .error e => .error e
            | .ok rest => .ok (v.data ++ rest) := by
  rw [renderTemplate.eq_def]
  simp only
  rw [if_pos h]

/-- Rendering with a successful resolver substitutes the resolved value for
the placeholder. -/
theorem renderTemplate_subst (w : String) (pre post : List Char)
    (hpre : '$' ∉ pre) (hpost : containsPlaceholder post = false) :
    renderTemplate (.ok w) (pre ++ workspaceFolderPlaceholder ++ post)
      = .ok (pre ++ w.data ++ post) := by
  induction pre with
  | nil =>
      simp only [List.nil_append]
      cases hl : workspaceFolderPlaceholder ++ post with
      | nil => simp [workspaceFolderPlaceholder] at hl
      | cons c cs =>
          have hpref : workspaceFolderPlaceholder.isPrefixOf (c :: cs) = true := by
            rw [← hl, List.isPrefixOf_iff_prefix]
            exact List.prefix_append _ _
          have hdrop : (c :: cs).drop workspaceFolderPlaceholder.length = post := by
            rw [← hl]
            exact List.drop_left _ _
          rw [renderTemplate_cons_match _ _ _ hpref, hdrop,
            renderTemplate_no_placeholder _ _ hpost]
  | cons c pre ih =>
      have hc : c ≠ '$' := fun hc => hpre (hc ▸ List.mem_cons_self c pre)
      have hc2 : ('$' = c) = False := by
        simp [Ne.symm hc]
      have hnotpre : workspaceFolderPlaceholder.isPrefixOf
          (c :: (pre ++ workspaceFolderPlaceholder ++ post)) = false := by
        rw [show workspaceFolderPlaceholder
            = '$' :: "\x7bworkspaceFolder\x7d".data from rfl]
        simp only [List.isPrefixOf]
        simp [hc2]
      simp only [List.cons_append]
      rw [renderTemplate.eq_def]
      simp only
      rw [if_neg (by simp only [hnotpre]; exact Bool.false_ne_true),
        ih (fun hmem => hpre (List.mem_cons_of_mem c hmem))]

/-- Outside any workspace, a template containing the placeholder evaluates
to the descriptive error. -/
theorem evaluateTemplate_none_error (t : String)
    (ht : containsPlaceholder t.data = true) :
    DiagramConfig.evaluateTemplate none t = .error noWorkspaceErrorMessage := by
  show (match renderTemplate (Except.error noWorkspaceErrorMessage) t.data with
        | Except.error e => Except.error e
        | Except.ok cs => Except.ok (String.mk cs)) = Except.error noWorkspaceErrorMessage
  rw [renderTemplate_error _ _ ht]

/-- Outside any workspace, a template without the placeholder evaluates to
itself (the resolver is never consulted). -/
theorem evaluateTemplate_none_ok (t : String)
    (ht : containsPlaceholder t.data = false) :
    DiagramConfig.evaluateTemplate none t = .ok t := by
  show (match renderTemplate (Except.error noWorkspaceErrorMessage) t.data with
        | Except.error e => Except.error e
        | Except.ok cs => Except.ok (String.mk cs)) = Except.ok t
  rw [renderTemplate_no_placeholder _ _ ht]

/-- C8: evaluating a template containing the placeholder for a document
inside a known workspace substitutes that workspace's root path; for a
document outside any workspace, evaluation fails with the descriptive
error rather than returning a default; and the failure propagates to the
`plugins` settings read that triggered the expansion. -/
theorem c8_workspaceFolder_expansion :
    (∀ (pre post : List Char) (root : String), '$' ∉ pre →
        containsPlaceholder post = false →
        DiagramConfig.evaluateTemplate (some root)
            (String.mk (pre ++ workspaceFolderPlaceholder ++ post))
          = .ok (String.mk (pre ++ root.data ++ post))) ∧
    (∀ t : String, containsPlaceholder t.data = true →
        DiagramConfig.evaluateTemplate none t = .error noWorkspaceErrorMessage) ∧
    (∀ (fs : List String) (f : String), f ∈ fs →
        containsPlaceholder f.data = true →
        DiagramConfig.plugins fs none = .error noWorkspaceErrorMessage) := by
  refine ⟨?_, evaluateTemplate_none_error, ?_⟩
  · intro pre post root hpre hpost
    show (match renderTemplate (Except.ok root)
            (pre ++ workspaceFolderPlaceholder ++ post) with
          | Except.error e => Except.error e
          | Except.ok cs => Except.ok (String.mk cs))
        = Except.ok (String.mk (pre ++ root.data ++ post))
    rw [renderTemplate_subst root pre post hpre hpost]
  · intro fs
    induction fs with
    | nil => intro f hf; exact absurd hf (List.not_mem_nil f)
    | cons g gs ih =>
        intro f hf hft
        rw [DiagramConfig.plugins]
        by_cases hg : containsPlaceholder g.data = true
        · rw [evaluateTemplate_none_error g hg]
        · rw [evaluateTemplate_none_ok g (by simpa using hg)]
          rcases List.mem_cons.mp hf with hfg | hfgs
          · exact absurd (hfg ▸ hft) hg
          · rw [ih f hfgs hft]

/-- Witness for C8. -/
theorem c8_witness :
    (('$' ∉ "lib/".data) ∧ containsPlaceholder "/plugin.js".data = false ∧
      DiagramConfig.evaluateTemplate (some "/home/user/proj")
          (String.mk ("lib/".data ++ workspaceFolderPlaceholder ++ "/plugin.js".data))
        = .ok (String.mk ("lib/".data ++ "/home/user/proj".data ++ "/plugin.js".data))) ∧
    (containsPlaceholder ("$\x7bworkspaceFolder\x7d/plugin.js" : String).data = true ∧
      DiagramConfig.evaluateTemplate none "$\x7bworkspaceFolder\x7d/plugin.js"
        = .error noWorkspaceErrorMessage) ∧
    DiagramConfig.plugins ["$\x7bworkspaceFolder\x7d/plugin.js"] none
      = .error noWorkspaceErrorMessage :=
  ⟨⟨by decide, by decide,
    c8_workspaceFolder_expansion.1 "lib/".data "/plugin.js".data "/home/user/proj"
      (by decide) (by decide)⟩,
   ⟨by decide,
    c8_workspaceFolder_expansion.2.1 "$\x7bworkspaceFolder\x7d/plugin.js" (by decide)⟩,
   c8_workspaceFolder_expansion.2.2 ["$\x7bworkspaceFolder\x7d/plugin.js"]
     "$\x7bworkspaceFolder\x7d/plugin.js" (by simp) (by decide)⟩

/-!  ## The local-storage setting (C7)

The non-development serializer of `DiagramConfig._localStorage` stores
`Buffer.from(JSON.stringify(val), "utf-8").toString("base64")`; the
deserializer, on a non-object stored value, computes
`JSON.parse(new Buffer(value || "", "base64").toString("utf-8"))`.
We model the platform codecs (UTF-8, base64, and `JSON.stringify` /
`JSON.parse` restricted to string-to-string records) faithfully and prove
the round-trip. -/

/-- Every `Char` is a unicode scalar value below `0x110000`. -/
theorem char_toNat_lt (c : Char) : c.toNat < 1114112 := by
  have h := c.valid
  rw [Char.toNat]
  rcases h with h | h <;> omega

/-- UTF-8 encoding of one unicode scalar value. -/
def utf8EncodeChar (n : Nat) : List Nat :=
  if n < 128 then [n]
  else if n < 2048 then [192 + n / 64, 128 + n % 64]
  else if n < 65536 then [224 + n / 4096, 128 + (n / 64) % 64, 128 + n % 64]
  else [240 + n / 262144, 128 + (n / 4096) % 64, 128 + (n / 64) % 64, 128 + n % 64]

/-- UTF-8 encoding of a character sequence (`Buffer.from(str, "utf-8")`). -/
def utf8Encode (s : List Char) : List Nat :=
  s.flatMap (fun c => utf8EncodeChar c.toNat)

mutual

/-- UTF-8 decoding (`buffer.toString("utf-8")`), as a byte-at-a-time state
machine; byte sequences that never arise from `utf8Encode` are decoded
permissively. -/
def utf8Decode : List Nat → Option (List Char)
  | [] => some []
  | b :: bs =>
      if b < 128 then (utf8Decode bs).map (fun cs => Char.ofNat b :: cs)
      else if b < 224 then utf8DecodeCont1 (b - 192) bs
      else if b < 240 then utf8DecodeCont2 (b - 224) bs
      else utf8DecodeCont3 (b - 240) bs

/-- Consume the final continuation byte of a multi-byte sequence. -/
def utf8DecodeCont1 (acc : Nat) : List Nat → Option (List Char)
  | [] => none
  | b :: bs => (utf8Decode bs).map (fun cs => Char.ofNat (acc * 64 + (b - 128)) :: cs)

/-- Consume the second-to-last continuation byte. -/
def utf8DecodeCont2 (acc : Nat) : List Nat → Option (List Char)
  | [] => none
  | b :: bs => utf8DecodeCont1 (acc * 64 + (b - 128)) bs

/-- Consume the third-to-last continuation byte. -/
def utf8DecodeCont3 (acc : Nat) : List Nat → Option (List Char)
  | [] => none
  | b :: bs => utf8DecodeCont2 (acc * 64 + (b - 128)) bs

end

/-- Decoding picks one encoded scalar back off the front of the byte
stream. -/
theorem utf8Decode_encodeChar (n : Nat) (hn : n < 1114112) (rest : List Nat) :
    utf8Decode (utf8EncodeChar n ++ rest)
      = (utf8Decode rest).map (fun cs => Char.ofNat n :: cs) := by
  rw [utf8EncodeChar]
  by_cases h1 : n < 128
  · rw [if_pos h1]
    show utf8Decode (n :: rest) = _
    rw [utf8Decode, if_pos h1]
  · rw [if_neg h1]
    by_cases h2 : n < 2048
    · rw [if_pos h2]
      show utf8Decode ((192 + n / 64) :: (128 + n % 64) :: rest) = _
      rw [utf8Decode, if_neg (by omega), if_pos (by omega : 192 + n / 64 < 224),
        utf8DecodeCont1]
      have harith : (192 + n / 64 - 192) * 64 + (128 + n % 64 - 128) = n := by omega
      simp only [harith]
    · rw [if_neg h2]
      by_cases h3 : n < 65536
      · rw [if_pos h3]
        show utf8Decode
            ((224 + n / 4096) :: (128 + (n / 64) % 64) :: (128 + n % 64) :: rest) = _
        rw [utf8Decode, if_neg (by omega), if_neg (by omega),
          if_pos (by omega : 224 + n / 4096 < 240), utf8DecodeCont2, utf8DecodeCont1]
        have harith : ((224 + n / 4096 - 224) * 64 + (128 + (n / 64) % 64 - 128)) * 64
            + (128 + n % 64 - 128) = n := by omega
        simp only [harith]
      · rw [if_neg h3]
        show utf8Decode
            ((240 + n / 262144) :: (128 + (n / 4096) % 64) :: (128 + (n / 64) % 64)
              :: (128 + n % 64) :: rest) = _
        rw [utf8Decode, if_neg (by omega), if_neg (by omega), if_neg (by omega),
          utf8DecodeCont3, utf8DecodeCont2, utf8DecodeCont1]
        have harith : (((240 + n / 262144 - 240) * 64 + (128 + (n / 4096) % 64 - 128)) * 64
            + (128 + (n / 64) % 64 - 128)) * 64 + (128 + n % 64 - 128) = n := by omega
        simp only [harith]

/-- UTF-8 round-trip. -/
theorem utf8_roundtrip (s : List Char) : utf8Decode (utf8Encode s) = some s := by
  induction s with
  | nil => rfl
  | cons c cs ih =>
      rw [utf8Encode, List.flatMap_cons,
        utf8Decode_encodeChar c.toNat (char_toNat_lt c) _]
      rw [show cs.flatMap (fun c => utf8EncodeChar c.toNat) = utf8Encode cs from rfl,
        ih]
      simp [Char.ofNat_toNat]

/-- Every byte emitted by the UTF-8 encoder fits in one octet. -/
theorem utf8Encode_lt_256 (s : List Char) : ∀ b ∈ utf8Encode s, b < 256 := by
  induction s with
  | nil => intro b hb; simp [utf8Encode] at hb
  | cons c cs ih =>
      intro b hb
      rw [utf8Encode, List.flatMap_cons] at hb
      rcases List.mem_append.mp hb with h | h
      · have hc := char_toNat_lt c
        rw [utf8EncodeChar] at h
        by_cases h1 : c.toNat < 128
        · rw [if_pos h1] at h
          simp at h
          omega
        · rw [if_neg h1] at h
          by_cases h2 : c.toNat < 2048
          · rw [if_pos h2] at h
            simp at h
            rcases h with h | h <;> omega
          · rw [if_neg h2] at h
            by_cases h3 : c.toNat < 65536
            · rw [if_pos h3] at h
              simp at h
              rcases h with h | h | h <;> omega
            · rw [if_neg h3] at h
              simp at h
              rcases h with h | h | h | h <;> omega
      · exact ih b h

/-- The base64 alphabet used by `buffer.toString("base64")`. -/
def base64Alphabet : List Char :=
  "ABCDEFGHIJKLMNOPQRSTUVWXYZabcdefghijklmnopqrstuvwxyz0123456789+/".data

/-- Sextet value to base64 character. -/
def base64Char (n : Nat) : Char := base64Alphabet.getD n 'A'

/-- Base64 character back to its sextet value. -/
def base64CharVal (c : Char) : Option Nat :=
  base64Alphabet.findIdx? (fun a => a == c)

/-- Standard base64 encoding with `=` padding
(`Buffer.prototype.toString("base64")`). -/
def base64Encode : List Nat → List Char
  | [] => []
  | [b0] => [base64Char (b0 / 4), base64Char ((b0 % 4) * 16), '=', '=']
  | [b0, b1] => [base64Char (b0 / 4), base64Char ((b0 % 4) * 16 + b1 / 16),
      base64Char ((b1 % 16) * 4), '=']
  | b0 :: b1 :: b2 :: rest =>
      base64Char (b0 / 4) :: base64Char ((b0 % 4) * 16 + b1 / 16)
        :: base64Char ((b1 % 16) * 4 + b2 / 64) :: base64Char (b2 % 64)
        :: base64Encode rest

/-- Base64 decoding (`new Buffer(value, "base64")`), strict on the
well-formed outputs of `base64Encode`. -/
def base64Decode : List Char → Option (List Nat)
  | [] => some []
  | c0 :: c1 :: c2 :: c3 :: rest =>
      if c2 = '=' then
        if c3 = '=' ∧ rest = [] then
          match base64CharVal c0, base64CharVal c1 with
          | some n0, some n1 => some [n0 * 4 + n1 / 16]
          | _, _ => none
        else none
      else if c3 = '=' then
        if rest = [] then
          match base64CharVal c0, base64CharVal c1, base64CharVal c2 with
          | some n0, some n1, some n2 =>
              some [n0 * 4 + n1 / 16, (n1 % 16) * 16 + n2 / 4]
          | _, _, _ => none
        else none
      else
        match base64CharVal c0, base64CharVal c1, base64CharVal c2, base64CharVal c3 with
        | some n0, some n1, some n2, some n3 =>
            (base64Decode rest).map (fun bs =>
              (n0 * 4 + n1 / 16) :: ((n1 % 16) * 16 + n2 / 4) :: ((n2 % 4) * 64 + n3) :: bs)
        | _, _, _, _ => none
  | _ => none

/-- Decoding a base64 character inverts encoding, for every sextet. -/
theorem base64CharVal_char : ∀ n, n < 64 → base64CharVal (base64Char n) = some n := by
  decide

/-- No sextet encodes to the padding character. -/
theorem base64Char_ne_pad : ∀ n, n < 64 → base64Char n ≠ '=' := by
  decide

/-- Base64 round-trip on octet lists. -/
theorem base64_roundtrip : ∀ bs : List Nat, (∀ b ∈ bs, b < 256) →
    base64Decode (base64Encode bs) = some bs
  | [] => fun _ => rfl
  | [b0] => fun h => by
      have hb0 : b0 < 256 := h b0 (by simp)
      rw [base64Encode, base64Decode, if_pos rfl, if_pos ⟨rfl, rfl⟩,
        base64CharVal_char _ (by omega), base64CharVal_char _ (by omega)]
      have harith : b0 / 4 * 4 + b0 % 4 * 16 / 16 = b0 := by omega
      show some [b0 / 4 * 4 + b0 % 4 * 16 / 16] = some [b0]
      rw [harith]
  | [b0, b1] => fun h => by
      have hb0 : b0 < 256 := h b0 (by simp)
      have hb1 : b1 < 256 := h b1 (by simp)
      rw [base64Encode, base64Decode,
        if_neg (base64Char_ne_pad _ (by omega)), if_pos rfl, if_pos rfl,
        base64CharVal_char _ (by omega), base64CharVal_char _ (by omega),
        base64CharVal_char _ (by omega)]
      have h0 : b0 / 4 * 4 + (b0 % 4 * 16 + b1 / 16) / 16 = b0 := by omega
      have h1 : (b0 % 4 * 16 + b1 / 16) % 16 * 16 + b1 % 16 * 4 / 4 = b1 := by omega
      show some [b0 / 4 * 4 + (b0 % 4 * 16 + b1 / 16) / 16,
          (b0 % 4 * 16 + b1 / 16) % 16 * 16 + b1 % 16 * 4 / 4] = some [b0, b1]
      rw [h0, h1]
  | b0 :: b1 :: b2 :: rest => fun h => by
      have hb0 : b0 < 256 := h b0 (by simp)
      have hb1 : b1 < 256 := h b1 (by simp)
      have hb2 : b2 < 256 := h b2 (by simp)
      rw [base64Encode, base64Decode,
        if_neg (base64Char_ne_pad _ (by omega)),
        if_neg (base64Char_ne_pad _ (by omega)),
        base64CharVal_char _ (by omega), base64CharVal_char _ (by omega),
        base64CharVal_char _ (by omega), base64CharVal_char _ (by omega),
        base64_roundtrip rest (fun b hb => h b (by simp [hb]))]
      have h0 : b0 / 4 * 4 + (b0 % 4 * 16 + b1 / 16) / 16 = b0 := by omega
      have h1 : (b0 % 4 * 16 + b1 / 16) % 16 * 16 + (b1 % 16 * 4 + b2 / 64) / 4 = b1 := by omega
      have h2 : (b1 % 16 * 4 + b2 / 64) % 4 * 64 + b2 % 64 = b2 := by omega
      show some ((b0 / 4 * 4 + (b0 % 4 * 16 + b1 / 16) / 16)
          :: ((b0 % 4 * 16 + b1 / 16) % 16 * 16 + (b1 % 16 * 4 + b2 / 64) / 4)
          :: ((b1 % 16 * 4 + b2 / 64) % 4 * 64 + b2 % 64) :: rest)
        = some (b0 :: b1 :: b2 :: rest)
      rw [h0, h1, h2]

/-- The opening brace character. -/
def openBraceChar : Char := Char.ofNat 123

/-- The closing brace character. -/
def closeBraceChar : Char := Char.ofNat 125

/-- `JSON.stringify` of one string, at character level: quote and escape. -/
def quoteChars (s : String) : List Char :=
  '"' :: (s.data.flatMap escChar ++ ['"'])

/-- One `"key":"value"` object member. -/
def entryChars (kv : String × String) : List Char :=
  quoteChars kv.1 ++ ':' :: quoteChars kv.2

/-- The comma-separated members of a stringified record, in insertion
order. -/
def entriesChars : List (String × String) → List Char
  | [] => []
  | [kv] => entryChars kv
  | kv :: kv2 :: tl => entryChars kv ++ ',' :: entriesChars (kv2 :: tl)

/-- `JSON.stringify` of a string-to-string record. -/
def stringifyStringMap (m : List (String × String)) : String :=
  String.mk (openBraceChar :: (entriesChars m ++ [closeBraceChar]))

/-- Value of one hexadecimal digit as emitted inside `\u00..` escapes. -/
def hexVal (c : Char) : Option Nat :=
  if c = '0' then some 0 else if c = '1' then some 1 else if c = '2' then some 2
  else if c = '3' then some 3 else if c = '4' then some 4 else if c = '5' then some 5
  else if c = '6' then some 6 else if c = '7' then some 7 else if c = '8' then some 8
  else if c = '9' then some 9 else if c = 'a' then some 10 else if c = 'b' then some 11
  else if c = 'c' then some 12 else if c = 'd' then some 13 else if c = 'e' then some 14
  else if c = 'f' then some 15
  else none

mutual

/-- `JSON.parse` of the escaped body of a string literal, up to and
including its closing quote; yields the unescaped characters and the
remaining input. -/
def parseStringBody : List Char → Option (List Char × List Char)
  | [] => none
  | c :: cs =>
      if c = '"' then some ([], cs)
      else if c = '\\' then parseEscape cs
      else (parseStringBody cs).map (fun r => (c :: r.1, r.2))

/-- Parse what follows a backslash inside a string literal. -/
def parseEscape : List Char → Option (List Char × List Char)
  | [] => none
  | e :: cs =>
      if e = '"' then (parseStringBody cs).map (fun r => ('"' :: r.1, r.2))
      else if e = '\\' then (parseStringBody cs).map (fun r => ('\\' :: r.1, r.2))
      else if e = 'b' then (parseStringBody cs).map (fun r => (Char.ofNat 8 :: r.1, r.2))
      else if e = 't' then (parseStringBody cs).map (fun r => (Char.ofNat 9 :: r.1, r.2))
      else if e = 'n' then (parseStringBody cs).map (fun r => (Char.ofNat 10 :: r.1, r.2))
      else if e = 'f' then (parseStringBody cs).map (fun r => (Char.ofNat 12 :: r.1, r.2))
      else if e = 'r' then (parseStringBody cs).map (fun r => (Char.ofNat 13 :: r.1, r.2))
      else if e = 'u' then parseHex4 cs
      else none

/-- Parse the four hex digits of a `\uXXXX` escape. -/
def parseHex4 : List Char → Option (List Char × List Char)
  | h1 :: h2 :: h3 :: h4 :: cs =>
      match hexVal h1, hexVal h2, hexVal h3, hexVal h4 with
      | some d1, some d2, some d3, some d4 =>
          (parseStringBody cs).map (fun r =>
            (Char.ofNat (d1 * 4096 + d2 * 256 + d3 * 16 + d4) :: r.1, r.2))
      | _, _, _, _ => none
  | _ => none

end

/-- `hexVal` inverts `hexDigitChar` on every digit. -/
theorem hexVal_hexDigitChar : ∀ d, d < 16 → hexVal (hexDigitChar d) = some d := by
  decide

/-- Parsing inverts escaping: the body parser peels an escaped string and
its closing quote off the input. -/
theorem parseStringBody_escape (s : List Char) : ∀ rest : List Char,
    parseStringBody (s.flatMap escChar ++ '"' :: rest) = some (s, rest) := by
  induction s with
  | nil =>
      intro rest
      rw [List.flatMap_nil, List.nil_append, parseStringBody, if_pos rfl]
  | cons c cs ih =>
      intro rest
      rw [List.flatMap_cons, List.append_assoc, escChar]
      by_cases hq : c = '"'
      · subst hq
        rw [if_pos rfl]
        simp only [List.cons_append, List.nil_append]
        rw [parseStringBody, if_neg (by decide), if_pos rfl, parseEscape,
          if_pos rfl, ih rest]
        rfl
      · rw [if_neg hq]
        by_cases hbs : c = '\\'
        · subst hbs
          rw [if_pos rfl]
          simp only [List.cons_append, List.nil_append]
          rw [parseStringBody, if_neg (by decide), if_pos rfl, parseEscape,
            if_neg (by decide), if_pos rfl, ih rest]
          rfl
        · rw [if_neg hbs]
          by_cases h8 : c.toNat = 8
          · rw [if_pos h8]
            simp only [List.cons_append, List.nil_append]
            rw [parseStringBody, if_neg (by decide), if_pos rfl, parseEscape,
              if_neg (by decide), if_neg (by decide), if_pos rfl, ih rest]
            have : Char.ofNat 8 = c := by rw [← h8, Char.ofNat_toNat]
            rw [this]
            rfl
          · rw [if_neg h8]
            by_cases h9 : c.toNat = 9
            · rw [if_pos h9]
              simp only [List.cons_append, List.nil_append]
              rw [parseStringBody, if_neg (by decide), if_pos rfl, parseEscape,
                if_neg (by decide), if_neg (by decide), if_neg (by decide),
                if_pos rfl, ih rest]
              have : Char.ofNat 9 = c := by rw [← h9, Char.ofNat_toNat]
              rw [this]
              rfl
            · rw [if_neg h9]
              by_cases h10 : c.toNat = 10
              · rw [if_pos h10]
                simp only [List.cons_append, List.nil_append]
                rw [parseStringBody, if_neg (by decide), if_pos rfl, parseEscape,
                  if_neg (by decide), if_neg (by decide), if_neg (by decide),
                  if_neg (by decide), if_pos rfl, ih rest]
                have : Char.ofNat 10 = c := by rw [← h10, Char.ofNat_toNat]
                rw [this]
                rfl
              · rw [if_neg h10]
                by_cases h12 : c.toNat = 12
                · rw [if_pos h12]
                  simp only [List.cons_append, List.nil_append]
                  rw [parseStringBody, if_neg (by decide), if_pos rfl, parseEscape,
                    if_neg (by decide), if_neg (by decide), if_neg (by decide),
                    if_neg (by decide), if_neg (by decide), if_pos rfl, ih rest]
                  have : Char.ofNat 12 = c := by rw [← h12, Char.ofNat_toNat]
                  rw [this]
                  rfl
                · rw [if_neg h12]
                  by_cases h13 : c.toNat = 13
                  · rw [if_pos h13]
                    simp only [List.cons_append, List.nil_append]
                    rw [parseStringBody, if_neg (by decide), if_pos rfl, parseEscape,
                      if_neg (by decide), if_neg (by decide), if_neg (by decide),
                      if_neg (by decide), if_neg (by decide), if_neg (by decide),
                      if_pos rfl, ih rest]
                    have : Char.ofNat 13 = c := by rw [← h13, Char.ofNat_toNat]
                    rw [this]
                    rfl
                  · rw [if_neg h13]
                    by_cases hctl : c.toNat < 32
                    · rw [if_pos hctl]
                      simp only [List.cons_append, List.nil_append]
                      rw [parseStringBody, if_neg (by decide), if_pos rfl, parseEscape,
                        if_neg (by decide), if_neg (by decide), if_neg (by decide),
                        if_neg (by decide), if_neg (by decide), if_neg (by decide),
                        if_neg (by decide), if_pos rfl, parseHex4,
                        show hexVal '0' = some 0 from by decide,
                        hexVal_hexDigitChar (c.toNat / 16) (by omega),
                        hexVal_hexDigitChar (c.toNat % 16) (by omega),
                        ih rest]
                      show some (Char.ofNat
                            (0 * 4096 + 0 * 256 + c.toNat / 16 * 16 + c.toNat % 16)
                          :: cs, rest) = some (c :: cs, rest)
                      rw [show 0 * 4096 + 0 * 256 + c.toNat / 16 * 16 + c.toNat % 16
                            = c.toNat from by omega,
                        Char.ofNat_toNat]
                    · rw [if_neg hctl]
                      simp only [List.cons_append, List.nil_append]
                      rw [parseStringBody, if_neg hq, if_neg hbs, ih rest]
                      rfl

/-- `JSON.parse` of the members of a string-to-string object, fuelled by an
upper bound on the number of members. -/
def parseEntries : Nat → List Char → Option (List (String × String))
  | 0, _ => none
  | _ + 1, [] => none
  | fuel + 1, c :: cs =>
      if c = '"' then
        match parseStringBody cs with
        | none => none
        | some (k, rest1) =>
            match rest1 with
            | c1 :: c2 :: rest2 =>
                if c1 = ':' ∧ c2 = '"' then
                  match parseStringBody rest2 with
                  | none => none
                  | some (v, rest3) =>
                      match rest3 with
                      | [] => none
                      | c4 :: rest4 =>
                          if c4 = ',' then
                            (parseEntries fuel rest4).map
                              (fun es => (String.mk k, String.mk v) :: es)
                          else if c4 = closeBraceChar ∧ rest4 = [] then
                            some [(String.mk k, String.mk v)]
                          else none
                else none
            | _ => none
      else none

/-- `JSON.parse` restricted to the string-to-string objects that
`stringifyStringMap` produces. -/
def parseStringMap : List Char → Option (List (String × String))
  | c :: c2 :: cs2 =>
      if c = openBraceChar then
        if c2 = closeBraceChar ∧ cs2 = [] then some []
        else parseEntries (c2 :: cs2).length (c2 :: cs2)
      else none
  | _ => none

/-- Parsing one serialized member off the front of the member list. -/
theorem parseEntries_entry (k v : String) (tail : List Char) (fuel : Nat) :
    parseEntries (fuel + 1) (entryChars (k, v) ++ tail)
      = match tail with
        | [] => none
        | c4 :: rest4 =>
            if c4 = ',' then
              (parseEntries fuel rest4).map (fun es => (k, v) :: es)
            else if c4 = closeBraceChar ∧ rest4 = [] then some [(k, v)]
            else none := by
  have hshape : entryChars (k, v) ++ tail
      = '"' :: (k.data.flatMap escChar ++ '"'
          :: (':' :: '"' :: (v.data.flatMap escChar ++ '"' :: tail))) := by
    simp [entryChars, quoteChars, List.append_assoc]
  rw [hshape, parseEntries, if_pos rfl, parseStringBody_escape k.data]
  show (if ':' = ':' ∧ '"' = '"' then
          match parseStringBody (v.data.flatMap escChar ++ '"' :: tail) with
          | none => none
          | some (w, rest3) =>
              match rest3 with
              | [] => none
              | c4 :: rest4 =>
                  if c4 = ',' then
                    (parseEntries fuel rest4).map
                      (fun es => (String.mk k.data, String.mk w) :: es)
                  else if c4 = closeBraceChar ∧ rest4 = [] then
                    some [(String.mk k.data, String.mk w)]
                  else none
        else none)
      = _
  rw [if_pos ⟨rfl, rfl⟩, parseStringBody_escape v.data]

/-- Parsing inverts serialization on a nonempty member list followed by the
closing brace. -/
theorem parseEntries_roundtrip : ∀ (m : List (String × String)) (fuel : Nat),
    m.length ≤ fuel → m ≠ [] →
    parseEntries fuel (entriesChars m ++ [closeBraceChar]) = some m
  | [], _, _, hne => absurd rfl hne
  | [(k, v)], fuel, hlen, _ => by
      match fuel, hlen with
      | fuel + 1, _ =>
        rw [entriesChars, parseEntries_entry k v [closeBraceChar] fuel]
        show (if closeBraceChar = ',' then
                (parseEntries fuel []).map (fun es => (k, v) :: es)
              else if closeBraceChar = closeBraceChar ∧ ([] : List Char) = [] then
                some [(k, v)]
              else none) = some [(k, v)]
        rw [if_neg (by decide), if_pos ⟨rfl, rfl⟩]
  | (k, v) :: kv2 :: tl, fuel, hlen, _ => by
      match fuel, hlen with
      | fuel + 1, hlen2 =>
        rw [entriesChars, List.append_assoc, List.cons_append,
          parseEntries_entry k v (',' :: (entriesChars (kv2 :: tl) ++ [closeBraceChar])) fuel]
        show (if ',' = ',' then
                (parseEntries fuel (entriesChars (kv2 :: tl) ++ [closeBraceChar])).map
                  (fun es => (k, v) :: es)
              else if ',' = closeBraceChar ∧ entriesChars (kv2 :: tl) ++ [closeBraceChar] = [] then
                some [(k, v)]
              else none) = some ((k, v) :: kv2 :: tl)
        rw [if_pos rfl,
          parseEntries_roundtrip (kv2 :: tl) fuel
            (by simp only [List.length_cons] at hlen2 ⊢; omega) (by simp)]
        rfl

/-- Each member list is at least as long (in characters) as its number of
members. -/
theorem entriesChars_length : ∀ m : List (String × String),
    m.length ≤ (entriesChars m).length
  | [] => by simp [entriesChars]
  | [kv] => by
      simp [entriesChars, entryChars, quoteChars]
  | kv :: kv2 :: tl => by
      have h2 := entriesChars_length (kv2 :: tl)
      simp only [List.length_cons] at h2 ⊢
      simp only [entriesChars, List.length_append, List.length_cons]
      simp [entryChars, quoteChars]
      omega

/-- Round-trip of the string-to-string record through `JSON.stringify` and
`JSON.parse`. -/
theorem parseStringMap_roundtrip (m : List (String × String)) :
    parseStringMap (stringifyStringMap m).data = some m := by
  match m with
  | [] => rfl
  | kv :: tl =>
      show parseStringMap
          (openBraceChar :: (entriesChars (kv :: tl) ++ [closeBraceChar]))
        = some (kv :: tl)
      have hhead : ∃ t, entriesChars (kv :: tl) ++ [closeBraceChar] = '"' :: t := by
        cases tl with
        | nil => exact ⟨_, rfl⟩
        | cons kv2 tl2 => exact ⟨_, rfl⟩
      obtain ⟨t, ht⟩ := hhead
      rw [ht, parseStringMap, if_pos rfl,
        if_neg (fun h => absurd h.1 (by decide)), ← ht]
      refine parseEntries_roundtrip (kv :: tl) _ ?_ (by simp)
      have hlen := entriesChars_length (kv :: tl)
      simp only [List.length_append, List.length_cons, List.length_nil] at hlen ⊢
      omega

/-- A value as persisted in the `local-storage` setting: either the base64
string written by the production serializer, or a "jsonified" object as
written under the development override (`process.env.DEV === "1"`); the
deserializer dispatches on `typeof value === "object"`. -/
inductive StoredValue where
  | str (s : String)
  | obj (fields : JsonFields)

/-- The deserializer's object branch:
`mapObject(value, item => typeof item === "string" ? item : JSON.stringify(item))`. -/
def jsonifiedToStrings : JsonFields → List (String × String)
  | .nil => []
  | .cons k v tl =>
      (k, match v with
          | .str s => s
          | _ => Json.stringify v) :: jsonifiedToStrings tl

/-- The `_localStorage` serializer on the production path
(`process.env.DEV !== "1"`, i.e. outside the development-encoding
override): `Buffer.from(JSON.stringify(val), "utf-8").toString("base64")`. -/
def localStorageSerialize (m : List (String × String)) : StoredValue :=
  .str (String.mk (base64Encode (utf8Encode (stringifyStringMap m).data)))

/-- The `_localStorage` deserializer: an object stored value is mapped back
to strings; any other stored value is base64-decoded
(`new Buffer(value || "", "base64").toString("utf-8")`) and parsed with
`JSON.parse`. -/
def localStorageDeserialize : StoredValue → Option (List (String × String))
  | .obj fields => some (jsonifiedToStrings fields)
  | .str s =>
      match base64Decode s.data with
      | none => none
      | some bytes =>
          match utf8Decode bytes with
          | none => none
          | some cs => parseStringMap cs

/-- C7: outside the development-encoding override, the local-storage
setting round-trips: for every string-to-string map, serializing it
(base64 of the UTF-8 bytes of its JSON encoding) and then deserializing
the stored value yields the original map. -/
theorem c7_localStorage_roundtrip (m : List (String × String)) :
    localStorageDeserialize (localStorageSerialize m) = some m := by
  rw [localStorageSerialize, localStorageDeserialize]
  show (match base64Decode (base64Encode (utf8Encode (stringifyStringMap m).data)) with
        | none => none
        | some bytes =>
            match utf8Decode bytes with
            | none => none
            | some cs => parseStringMap cs) = some m
  rw [base64_roundtrip _ (utf8Encode_lt_256 (stringifyStringMap m).data)]
  show (match utf8Decode (utf8Encode (stringifyStringMap m).data) with
        | none => none
        | some cs => parseStringMap cs) = some m
  rw [utf8_roundtrip]
  show parseStringMap (stringifyStringMap m).data = some m
  exact parseStringMap_roundtrip m
